import Mathlib

/-!
Verification development for the `x_to_telegram_feed` forwarder
(`x_to_telegram.js`, Gist-state revision).

Strings are modelled as `List Char`.  Effectful JavaScript code
(Telegram sends, Gist state reads/writes, X API calls) is modelled by
explicit state passing: an `Env` record supplies the outcome of every
external call, functions return the list of Telegram calls they issued
together with an `Except`-style result mirroring JS exception flow.
-/

namespace XTG

/-- JS strings, modelled as lists of characters. -/
abbrev Str := List Char

/-- ASCII fragment of the JS regexp class `\s` (space, tab, CR, LF,
vertical tab, form feed).  The tweets handled here are ASCII-safe for
the whitespace positions the claims exercise. -/
def jsWs (c : Char) : Bool :=
  c = ' ' || c = '\t' || c = '\n' || c = '\r' || c = '\x0b' || c = '\x0c'

/-- JS `String.prototype.trim()`: drop whitespace from both ends. -/
def trimWs (s : Str) : Str :=
  ((s.dropWhile jsWs).reverse.dropWhile jsWs).reverse

/-- `isPrefixList pat s`: `pat` is an initial segment of `s`. -/
def isPrefixList : Str → Str → Bool
  | [], _ => true
  | _ :: _, [] => false
  | p :: ps, c :: cs => p = c && isPrefixList ps cs

/-- `occursIn pat s`: `pat` occurs as a contiguous substring of `s`
(JS `indexOf` would succeed). -/
def occursIn (pat : Str) : Str → Bool
  | [] => isPrefixList pat []
  | c :: rest => isPrefixList pat (c :: rest) || occursIn pat rest

/-- Fueled worker for `removeAll`.  One unit of fuel is spent per
character position scanned, so fuel `s.length` is always enough. -/
def removeAllGo (pat : Str) : Nat → Str → Str
  | 0, s => s
  | _ + 1, [] => []
  | f + 1, c :: rest =>
    if !pat.isEmpty && isPrefixList pat (c :: rest) then
      removeAllGo pat f ((c :: rest).drop pat.length)
    else
      c :: removeAllGo pat f rest

/-- JS `text.replaceAll(pat, '')` for a non-empty string pattern:
remove the leftmost occurrence, continue scanning after it
(non-overlapping, left to right).  An empty pattern is the identity,
matching the `if (url.url)` guard in the source. -/
def removeAll (pat s : Str) : Str :=
  removeAllGo pat s.length s

/-- Worker for `collapseWs`; the flag records whether we are inside a
whitespace run whose single replacement space was already emitted. -/
def collapseWsAux : Bool → Str → Str
  | _, [] => []
  | inRun, c :: rest =>
    if jsWs c then
      if inRun then collapseWsAux true rest
      else ' ' :: collapseWsAux true rest
    else c :: collapseWsAux false rest

/-- JS `text.replace(/\s+/g, ' ')`: every maximal whitespace run
becomes a single space. -/
def collapseWs (s : Str) : Str :=
  collapseWsAux false s

/-- Largest index `i ≤ m` (and `i < s.length`) with `s[i] = '\n'`,
searching downward from `m`. -/
def lastNlAux (s : Str) : Nat → Option Nat
  | 0 => if s[0]? = some '\n' then some 0 else none
  | j + 1 => if s[j + 1]? = some '\n' then some (j + 1) else lastNlAux s j

/-- JS `text.lastIndexOf('\n', upTo)`: index of the last newline at or
before `upTo` (the JS fromIndex is clamped to `length - 1`). -/
def lastNl (s : Str) (upTo : Nat) : Option Nat :=
  lastNlAux s (min upTo (s.length - 1))

/-- Fueled worker for `collapseNl` (JS `replace(/\n\s+\n/g, '\n\n')`).
At a `'\n'` the greedy `\s+` scans the maximal whitespace run after
it and backtracks to the last `'\n'` inside the run (which must sit at
run offset ≥ 1 so that `\s+` is non-empty); scanning resumes after
the match, as with a `/g` regex. -/
def collapseNlGo : Nat → Str → Str
  | 0, s => s
  | _ + 1, [] => []
  | f + 1, c :: t =>
    if c = '\n' then
      let ws := t.takeWhile jsWs
      match lastNl ws ws.length with
      | some q =>
        if 1 ≤ q then
          '\n' :: '\n' :: collapseNlGo f (ws.drop (q + 1) ++ t.drop ws.length)
        else '\n' :: collapseNlGo f t
      | none => '\n' :: collapseNlGo f t
    else c :: collapseNlGo f t

/-- JS `text.replace(/\n\s+\n/g, '\n\n')`. -/
def collapseNl (s : Str) : Str :=
  collapseNlGo s.length s

/-- Fueled worker for `chunkTelegramMessage`'s `while` loop, carrying
the absolute `start` index of the source. -/
def chunkLoop (text : Str) (chunkSize : Nat) : Nat → Nat → List Str
  | 0, _ => []
  | f + 1, start =>
    if start < text.length then
      let e := min (start + chunkSize) text.length
      let splitAt :=
        match lastNl text e with
        | some i => if i ≤ start then e else i
        | none => e
      let chunk := (text.drop start).take (splitAt - start)
      let start2 := if splitAt = e then e else splitAt + 1
      chunk :: chunkLoop text chunkSize f start2
    else []

/-- `chunkTelegramMessage(text, chunkSize = 4096)` from the source:
split into pieces of at most `chunkSize` characters, preferring to cut
at the last newline at or before the window end. -/
def chunkTelegramMessage (text : Str) (chunkSize : Nat := 4096) : List Str :=
  if text.length ≤ chunkSize then [text]
  else chunkLoop text chunkSize text.length 0

/-! ### Data model -/

/-- Raw post from the timeline response: `id`, `text`,
`note_tweet?.text`, `entities?.urls[].url` (empty list entry stands for
a missing/falsy `url` field), `attachments?.media_keys`. -/
structure Tweet where
  id : Str
  text : Option Str
  noteText : Option Str
  urls : List Str
  mediaKeys : List Str
deriving DecidableEq

/-- Media `type` string from the API (`'photo'`, `'video'`, anything
else). -/
inductive MType where
  | photo
  | video
  | other
deriving DecidableEq

/-- An entry of `includes.media` from the fetch response. -/
structure MediaObj where
  media_key : Str
  mtype : MType
  url : Option Str
  preview_image_url : Option Str
deriving DecidableEq

/-- An element of the list `extractMedia` returns:
`{type, url, isVideoPreview}`. -/
structure MediaItem where
  mtype : MType
  url : Str
  isVideoPreview : Bool
deriving DecidableEq

/-! ### PostTransformer (`extractTweetText`, `buildMessage`,
`extractMedia`, `generateCaption`) -/

/-- `extractTweetText(tweet)` (Gist-state revision):
`(tweet.note_tweet?.text ?? tweet.text ?? "").trim()`, then
`replaceAll(url.url, '')` for each entity URL with a truthy `url`,
then `.replace(/\s+/g, ' ').replace(/\n\s+\n/g, '\n\n').trim()`. -/
def extractTweetText (tweet : Tweet) : Str :=
  let text := trimWs (tweet.noteText.getD (tweet.text.getD []))
  let text := tweet.urls.foldl (fun t u => if u.isEmpty then t else removeAll u t) text
  trimWs (collapseNl (collapseWs text))

/-- The `'\n\n🎬 Watch the full video via the Source link below 👇'`
notice appended when a post carries a video preview. -/
def videoNotice : Str := "\n\n🎬 Watch the full video via the Source link below 👇".data

/-- `buildMessage(username, tweet, hasVideoPreview)`. -/
def buildMessage (username : Str) (tweet : Tweet) (hasVideoPreview : Bool) : Str :=
  let tweetUrl := "https://x.com/".data ++ username ++ "/status/".data ++ tweet.id
  let tweetText := extractTweetText tweet
  let message := tweetText
  let message := if hasVideoPreview then message ++ videoNotice else message
  message ++ "\n\n🔗 Source:\n".data ++ tweetUrl

/-- Lookup in the `Map` built from `mediaData`: for duplicate keys the
last entry wins, as with JS `Map` construction. -/
def mediaLookup (pool : List MediaObj) (k : Str) : Option MediaObj :=
  (pool.filter (fun m => m.media_key = k)).getLast?

/-- The eligibility filter of `extractMedia`: photos need a direct
`url`, videos need a `preview_image_url`; unresolved keys and other
types are dropped. -/
def mediaEligible : Option MediaObj → Bool
  | none => false
  | some m =>
    match m.mtype with
    | MType.photo => m.url.isSome
    | MType.video => m.preview_image_url.isSome
    | MType.other => false

/-- The final `map` of `extractMedia`: videos degrade to photo-kind
preview surrogates (`isVideoPreview = true`).  The `none` case is
unreachable after `mediaEligible`. -/
def mediaToItem : Option MediaObj → MediaItem
  | none => ⟨MType.photo, [], false⟩
  | some m =>
    if m.mtype = MType.video then ⟨MType.photo, m.preview_image_url.getD [], true⟩
    else ⟨m.mtype, m.url.getD [], false⟩

/-- `extractMedia(tweet, mediaData)`. -/
def extractMedia (tweet : Tweet) (mediaData : List MediaObj) : List MediaItem :=
  if tweet.mediaKeys.isEmpty || mediaData.isEmpty then []
  else
    (((tweet.mediaKeys.map (mediaLookup mediaData)).filter mediaEligible).map mediaToItem)

/-- `TELEGRAM_CAPTION_MAX_LENGTH`. -/
def captionMax : Nat := 1024

/-- `generateCaption(message)`: the message itself when it fits,
otherwise its first `1024 - 3` characters followed by `'...'`. -/
def generateCaption (message : Str) : Str :=
  if message.length ≤ captionMax then message
  else message.take (captionMax - 3) ++ "...".data

/-! ### Sorting of fetched tweets (`fetchNewTweets`) -/

/-- Lexicographic `≤` on strings by code point; this is what
`a.id.localeCompare(b.id) ≤ 0` computes on the all-ASCII-digit tweet
ids the comparator receives. -/
def idLe : Str → Str → Bool
  | [], _ => true
  | _ :: _, [] => false
  | a :: as, b :: bs => if a < b then true else if b < a then false else idLe as bs

/-- The comparator `(a, b) => a.id.localeCompare(b.id)` as a relation
on tweets. -/
def tweetLe (a b : Tweet) : Prop := idLe a.id b.id = true

instance : DecidableRel tweetLe := fun a b =>
  inferInstanceAs (Decidable (idLe a.id b.id = true))

/-- `data.sort((a, b) => a.id.localeCompare(b.id))`: JS `Array.sort`
is a stable comparator sort, modelled by Mathlib's stable
`insertionSort` under the same ordering. -/
def sortTweets (data : List Tweet) : List Tweet :=
  List.insertionSort tweetLe data

/-! ### Effect model

A JS exception, with the one field the orchestrator's catch inspects
(`has429Status`: `e.code === 429 || e.statusCode === 429 || ...`). -/
structure Err where
  is429 : Bool
  tag : Str
deriving DecidableEq

/-- The `new Error(...)` thrown by `loadState`/`saveState` on a Gist
API failure: a plain `Error`, so none of the fields `has429Status`
reads exist and `is429` is `false`. -/
def storeErr : Err := ⟨false, "gist".data⟩

/-- Failure of `bot.api.sendMessage` (grammY errors carry none of the
fields `has429Status` reads). -/
def tgErr : Err := ⟨false, "sendMessage".data⟩

/-- Failure of `bot.api.sendPhoto`. -/
def photoErr : Err := ⟨false, "sendPhoto".data⟩

/-- Failure of `bot.api.sendMediaGroup`. -/
def groupErr : Err := ⟨false, "sendMediaGroup".data⟩

/-- One entry of the array passed to `bot.api.sendMediaGroup`:
`{type, media, caption?}`. -/
structure GroupItem where
  mtype : MType
  media : Str
  caption : Option Str
deriving DecidableEq

/-- A network call issued to the Telegram Bot API. -/
inductive TgCall where
  | sendMessage (chunk : Str) (disablePreview : Bool)
  | sendPhoto (url : Str) (caption : Str)
  | sendMediaGroup (group : List GroupItem)
deriving DecidableEq

/-- The persisted Gist record `state.json`:
`{ last_id: string|null, user_id: string|null }`. -/
structure St where
  last_id : Option Str
  user_id : Option Str
deriving DecidableEq

/-- Outcomes of all external calls a run makes, supplied by the
environment: success/failure of each kind of Telegram send, of each
Gist write (keyed by the written record), the `loadState` outcome, the
`userByUsername` resolution, the raw (unsorted) timeline response and
the single-tweet endpoint. -/
structure Env where
  msgOk : Str → Bool
  photoOk : Str → Str → Bool
  groupOk : List GroupItem → Bool
  saveOk : Option Str → Option Str → Bool
  loadFails : Bool
  loadErr : Err
  resolve : Except Err Str
  timeline : Except Err (List Tweet × List MediaObj)
  single : Str → Except Err (Tweet × List MediaObj)

/-- CLI/config arguments reaching `run`. -/
structure Args where
  username : Str
  includeRetweets : Bool
  includeReplies : Bool
  maxPerRun : Nat
  disablePreview : Bool
  dryRun : Bool
  tweetId : Option Str

/-! ### Delivery engine -/

/-- The `for (const part of chunks)` loop of `sendTextMessageChunked`:
chunks are sent in order; the first failing send aborts the rest and
its error propagates. -/
def sendChunksLoop (env : Env) (dp : Bool) : List Str → List TgCall × Except Err Unit
  | [] => ([], Except.ok ())
  | c :: rest =>
    if env.msgOk c then
      let r := sendChunksLoop env dp rest
      (TgCall.sendMessage c dp :: r.1, r.2)
    else ([TgCall.sendMessage c dp], Except.error tgErr)

/-- `sendTextMessageChunked(bot, chatId, message, disablePreview)`. -/
def sendTextMessageChunked (env : Env) (message : Str) (dp : Bool) :
    List TgCall × Except Err Unit :=
  sendChunksLoop env dp (chunkTelegramMessage message)

/-- `sendSingleMedia(bot, chatId, message, mediaItem)`. -/
def sendSingleMedia (env : Env) (message : Str) (item : MediaItem) :
    List TgCall × Except Err Unit :=
  let caption := generateCaption message
  ([TgCall.sendPhoto item.url caption],
    if env.photoOk item.url caption then Except.ok () else Except.error photoErr)

/-- The media-group array built in `sendMediaGroup`: first ten items,
caption only on index 0. -/
def buildGroup (message : Str) (media : List MediaItem) : List GroupItem :=
  (media.take 10).mapIdx fun i item =>
    ⟨item.mtype, item.url, if i = 0 then some (generateCaption message) else none⟩

/-- `sendMediaGroup(bot, chatId, message, media, disablePreview)`:
after a successful group send, the full text is additionally sent in
chunks when the body exceeds the caption limit or the media list
exceeds the group cap. -/
def sendMediaGroup (env : Env) (message : Str) (media : List MediaItem) (dp : Bool) :
    List TgCall × Except Err Unit :=
  let group := buildGroup message media
  if env.groupOk group then
    if message.length > captionMax ∨ media.length > 10 then
      let r := sendTextMessageChunked env message dp
      (TgCall.sendMediaGroup group :: r.1, r.2)
    else ([TgCall.sendMediaGroup group], Except.ok ())
  else ([TgCall.sendMediaGroup group], Except.error groupErr)

/-- `sendToTelegram({bot, chatId, message, media, disablePreview,
dryRun})`: dry-run makes no calls; with media, a failed media send
falls back to chunked text (whose own failure propagates); without
media the chunked text failure propagates. -/
def sendToTelegram (env : Env) (message : Str) (media : List MediaItem)
    (dp dryRun : Bool) : List TgCall × Except Err Unit :=
  if dryRun then ([], Except.ok ())
  else
    match media with
    | [] => sendTextMessageChunked env message dp
    | m :: rest =>
      let attempt :=
        match rest with
        | [] => sendSingleMedia env message m
        | _ :: _ => sendMediaGroup env message (m :: rest) dp
      match attempt.2 with
      | Except.ok _ => (attempt.1, Except.ok ())
      | Except.error _ =>
        let fb := sendTextMessageChunked env message dp
        (attempt.1 ++ fb.1, fb.2)

/-! ### StateStore and Sync Orchestrator -/

/-- `saveState(lastId, userId)`: on a successful Gist PATCH the stored
record becomes `{last_id, user_id}`; on failure the error is logged and
re-thrown and the store keeps its previous content. -/
def saveState (env : Env) (st : St) (lastId userId : Option Str) :
    St × Except Err Unit :=
  if env.saveOk lastId userId then (⟨lastId, userId⟩, Except.ok ())
  else (st, Except.error storeErr)

/-- The `for (const tweet of tweets)` loop of `processTweets`:
build the message, send, then persist `last_id = tweet.id`; any error
aborts the loop and propagates. -/
def processTweets (env : Env) (ar : Args) (userId : Str)
    (mediaData : List MediaObj) : St → List Tweet → St × List TgCall × Except Err Unit
  | st, [] => (st, [], Except.ok ())
  | st, t :: rest =>
    let media := extractMedia t mediaData
    let hasVP := media.any (·.isVideoPreview)
    let msg := buildMessage ar.username t hasVP
    let s := sendToTelegram env msg media ar.disablePreview ar.dryRun
    match s.2 with
    | Except.error e => (st, s.1, Except.error e)
    | Except.ok _ =>
      match saveState env st (some t.id) (some userId) with
      | (st1, Except.error e) => (st1, s.1, Except.error e)
      | (st1, Except.ok _) =>
        let r := processTweets env ar userId mediaData st1 rest
        (r.1, s.1 ++ r.2.1, r.2.2)

/-- `getUserIdWithCache(client, username, state)`: use the cached
`user_id`; otherwise resolve the handle and immediately persist the
resolved id alongside the unchanged `last_id`. -/
def getUserIdWithCache (env : Env) (st : St) : St × Except Err Str :=
  match st.user_id with
  | some u => (st, Except.ok u)
  | none =>
    match env.resolve with
    | Except.error e => (st, Except.error e)
    | Except.ok uid =>
      match saveState env st st.last_id (some uid) with
      | (st1, Except.ok _) => (st1, Except.ok uid)
      | (st1, Except.error e) => (st1, Except.error e)

/-- `fetchNewTweets(client, userId, sinceId, ...)`: the timeline
response (request parameters are server-side and not observable in the
model) with the tweet array re-sorted oldest-first by id. -/
def fetchNewTweets (env : Env) (userId : Str) (sinceId : Option Str)
    (includeRetweets includeReplies : Bool) (maxPerRun : Nat) :
    Except Err (List Tweet × List MediaObj) :=
  match env.timeline with
  | Except.error e => Except.error e
  | Except.ok (data, includesMedia) => Except.ok (sortTweets data, includesMedia)

/-- `fetchSpecificTweet(client, tweetId)`: the single-tweet endpoint,
wrapped as a one-element tweet list.  It never consults the cursor. -/
def fetchSpecificTweet (env : Env) (tweetId : Str) :
    Except Err (List Tweet × List MediaObj) :=
  match env.single tweetId with
  | Except.error e => Except.error e
  | Except.ok (t, m) => Except.ok ([t], m)

instance {α β : Type} [DecidableEq α] [DecidableEq β] : DecidableEq (Except α β)
  | Except.ok x, Except.ok y =>
    if h : x = y then isTrue (by rw [h])
    else isFalse fun hc => h (by cases hc; rfl)
  | Except.ok _, Except.error _ => isFalse fun hc => Except.noConfusion hc
  | Except.error _, Except.ok _ => isFalse fun hc => Except.noConfusion hc
  | Except.error x, Except.error y =>
    if h : x = y then isTrue (by rw [h])
    else isFalse fun hc => h (by cases hc; rfl)

/-- Result of one `run`: final persisted store, Telegram calls issued,
whether the 429 warning was logged, and the overall outcome
(`Except.error` means the run terminates fatally). -/
structure RunRes where
  st : St
  calls : List TgCall
  warned : Bool
  result : Except Err Unit
deriving DecidableEq

/-- The `catch (e)` block of `run`: a 429-flagged error ends the run
as a logged soft success, anything else re-throws. -/
def runCatch (st : St) (calls : List TgCall) (e : Err) : RunRes :=
  if e.is429 then ⟨st, calls, true, Except.ok ()⟩
  else ⟨st, calls, false, Except.error e⟩

/-- The body of `run`'s `try` block after the state is loaded. -/
def runTry (env : Env) (ar : Args) (st : St) : RunRes :=
  match getUserIdWithCache env st with
  | (st1, Except.error e) => runCatch st1 [] e
  | (st1, Except.ok userId) =>
    let fetched :=
      match ar.tweetId with
      | some tid => fetchSpecificTweet env tid
      | none =>
        fetchNewTweets env userId st1.last_id ar.includeRetweets
          ar.includeReplies ar.maxPerRun
    match fetched with
    | Except.error e => runCatch st1 [] e
    | Except.ok (tweets, mediaData) =>
      if tweets.length = 0 then ⟨st1, [], false, Except.ok ()⟩
      else
        match processTweets env ar userId mediaData st1 tweets with
        | (st2, calls, Except.ok _) => ⟨st2, calls, false, Except.ok ()⟩
        | (st2, calls, Except.error e) => runCatch st2 calls e

/-- `run(args)`: load the state (a load failure is thrown before the
`try` and is always fatal), then resolve/fetch/process with the 429
catch around the whole block. -/
def run (env : Env) (ar : Args) (st0 : St) : RunRes :=
  if env.loadFails then ⟨st0, [], false, Except.error env.loadErr⟩
  else runTry env ar st0

/-- The message `processTweets` builds for one tweet. -/
def tweetMsg (ar : Args) (mediaData : List MediaObj) (t : Tweet) : Str :=
  buildMessage ar.username t ((extractMedia t mediaData).any (·.isVideoPreview))

/-- The Telegram delivery (`sendToTelegram` call) `processTweets`
performs for one tweet. -/
def deliver (env : Env) (ar : Args) (mediaData : List MediaObj) (t : Tweet) :
    List TgCall × Except Err Unit :=
  sendToTelegram env (tweetMsg ar mediaData t) (extractMedia t mediaData)
    ar.disablePreview ar.dryRun

/-- Store contents after a loop that persisted every tweet of the
list in order, starting from `st`. -/
def finalStore (u : Str) (st : St) : List Tweet → St
  | [] => st
  | t :: rest => finalStore u ⟨some t.id, some u⟩ rest

/-! ### Concrete objects used to exercise the model -/

/-- A single-tweet endpoint that always fails (unused in timeline runs). -/
def noSingle : Str → Except Err (Tweet × List MediaObj) :=
  fun _ => Except.error ⟨false, []⟩

/-- Environment in which every external call succeeds. -/
def allOkEnv (tl : Except Err (List Tweet × List MediaObj))
    (sg : Str → Except Err (Tweet × List MediaObj)) : Env :=
  ⟨fun _ => true, fun _ _ => true, fun _ => true, fun _ _ => true, false,
    ⟨false, []⟩, Except.ok "u".data, tl, sg⟩

/-- Default live-mode arguments. -/
def arLive : Args := ⟨"alice".data, false, false, 50, false, false, none⟩

/-- Default dry-run arguments. -/
def arDry : Args := ⟨"alice".data, false, false, 50, false, true, none⟩

/-- Arguments carrying an explicit tweet id. -/
def ar6 : Args := ⟨"alice".data, false, false, 50, false, false, some "100".data⟩

def tA : Tweet := ⟨"2".data, some "hello".data, none, [], []⟩

def tB : Tweet := ⟨"10".data, some "world".data, none, [], []⟩

def tFail : Tweet := ⟨"3".data, some "boom".data, none, [], []⟩

def tNl : Tweet := ⟨"1".data, some "a\n\nb".data, none, [], []⟩

def tOld : Tweet := ⟨"100".data, some "old".data, none, [], []⟩

/-- Environment in which the text send for the post with id 3 fails
(its message contains the source link path of id 3) and everything
else succeeds. -/
def env2 : Env :=
  ⟨fun c => !occursIn "/status/3".data c, fun _ _ => true, fun _ => true,
    fun _ _ => true, false, ⟨false, []⟩, Except.ok "u".data,
    Except.ok ([], []), noSingle⟩

/-- Environment serving exactly the tweet with id 100 from the
single-tweet endpoint. -/
def env6 : Env :=
  ⟨fun _ => true, fun _ _ => true, fun _ => true, fun _ _ => true, false,
    ⟨false, []⟩, Except.ok "u".data, Except.ok ([], []),
    fun tid => if tid = "100".data then Except.ok (tOld, []) else Except.error ⟨false, []⟩⟩

/-- A rate-limit error: `has429Status` holds. -/
def rlErr : Err := ⟨true, "429".data⟩

/-- Environment whose timeline fetch is rate-limited. -/
def envRL : Env :=
  ⟨fun _ => true, fun _ _ => true, fun _ => true, fun _ _ => true, false,
    ⟨false, []⟩, Except.ok "u".data, Except.error rlErr, noSingle⟩

/-- Environment in which every media send fails and every text send
succeeds. -/
def envMediaFail : Env :=
  ⟨fun _ => true, fun _ _ => false, fun _ => false, fun _ _ => true, false,
    ⟨false, []⟩, Except.ok "u".data, Except.ok ([], []), noSingle⟩

/-- Environment in which every Gist write fails. -/
def envSaveFail : Env :=
  ⟨fun _ => true, fun _ _ => true, fun _ => true, fun _ _ => false, false,
    ⟨false, []⟩, Except.ok "u".data, Except.ok ([tA], []), noSingle⟩

/-- All-success environment whose timeline returns the two posts with
ids 2 and 10, in that (API) order. -/
def envC1 : Env := allOkEnv (Except.ok ([tA, tB], [])) noSingle

def mPhoto : MediaItem := ⟨MType.photo, "p".data, false⟩

def mPhoto2 : MediaItem := ⟨MType.photo, "q".data, false⟩

/-! ### Ordering lemmas -/

theorem idLe_nil_left (b : Str) : idLe [] b = true := rfl

theorem idLe_trans : ∀ a b c : Str, idLe a b = true → idLe b c = true → idLe a c = true := by
  intro a
  induction a with
  | nil => intro b c _ _; rfl
  | cons x xs ih =>
    intro b c hab hbc
    cases b with
    | nil => simp [idLe] at hab
    | cons y ys =>
      cases c with
      | nil => simp [idLe] at hbc
      | cons z zs =>
        simp only [idLe] at hab hbc ⊢
        by_cases hxy : x < y
        · by_cases hyz : y < z
          · simp [lt_trans hxy hyz]
          · by_cases hzy : z < y
            · simp [hyz, hzy] at hbc
            · have hyzeq : y = z := le_antisymm (le_of_not_lt hzy) (le_of_not_lt hyz)
              subst hyzeq
              simp [hxy]
        · by_cases hyx : y < x
          · simp [hxy, hyx] at hab
          · have hxyeq : x = y := le_antisymm (le_of_not_lt hyx) (le_of_not_lt hxy)
            subst hxyeq
            simp only [lt_irrefl, if_false] at hab
            by_cases hxz : x < z
            · simp [hxz]
            · by_cases hzx : z < x
              · simp [hxz, hzx] at hbc
              · have hxzeq : x = z := le_antisymm (le_of_not_lt hzx) (le_of_not_lt hxz)
                subst hxzeq
                simp only [lt_irrefl, if_false] at hbc ⊢
                exact ih ys zs hab hbc

theorem idLe_total : ∀ a b : Str, idLe a b = true ∨ idLe b a = true := by
  intro a
  induction a with
  | nil => intro b; left; rfl
  | cons x xs ih =>
    intro b
    cases b with
    | nil => right; rfl
    | cons y ys =>
      simp only [idLe]
      by_cases hxy : x < y
      · left; simp [hxy]
      · by_cases hyx : y < x
        · right; simp [hyx]
        · have hxyeq : x = y := le_antisymm (le_of_not_lt hyx) (le_of_not_lt hxy)
          subst hxyeq
          simp only [lt_irrefl, if_false]
          exact ih ys

theorem sortTweets_sorted (data : List Tweet) : List.Sorted tweetLe (sortTweets data) := by
  haveI : IsTotal Tweet tweetLe := ⟨fun a b => idLe_total a.id b.id⟩
  haveI : IsTrans Tweet tweetLe := ⟨fun a b c => idLe_trans a.id b.id c.id⟩
  exact List.sorted_insertionSort tweetLe data

theorem sortTweets_perm (data : List Tweet) : List.Perm (sortTweets data) data :=
  List.perm_insertionSort tweetLe data

/-! ### Chunking lemmas -/

theorem lastNlAux_sound (s : Str) :
    ∀ m i, lastNlAux s m = some i → s[i]? = some '\n' ∧ i ≤ m := by
  intro m
  induction m with
  | zero =>
    intro i h
    simp only [lastNlAux] at h
    by_cases h0 : s[0]? = some '\n'
    · rw [if_pos h0] at h
      cases h
      exact ⟨h0, Nat.le_refl 0⟩
    · rw [if_neg h0] at h
      exact Option.noConfusion h
  | succ j ih =>
    intro i h
    simp only [lastNlAux] at h
    by_cases hj : s[j + 1]? = some '\n'
    · rw [if_pos hj] at h
      cases h
      exact ⟨hj, Nat.le_refl _⟩
    · rw [if_neg hj] at h
      obtain ⟨h1, h2⟩ := ih i h
      exact ⟨h1, Nat.le_succ_of_le h2⟩

theorem lastNlAux_eq_some (s : Str) :
    ∀ m j, s[j]? = some '\n' → j ≤ m →
      (∀ k, j < k → k ≤ m → s[k]? ≠ some '\n') → lastNlAux s m = some j := by
  intro m
  induction m with
  | zero =>
    intro j hj hjm _
    have hj0 : j = 0 := Nat.le_zero.mp hjm
    subst hj0
    simp only [lastNlAux, if_pos hj]
  | succ i ih =>
    intro j hj hjm hmax
    by_cases hje : j = i + 1
    · subst hje
      simp only [lastNlAux, if_pos hj]
    · have hji : j ≤ i := Nat.lt_succ_iff.mp (Nat.lt_of_le_of_ne hjm hje)
      have hne : s[i + 1]? ≠ some '\n' :=
        hmax (i + 1) (Nat.lt_succ_of_le hji) (Nat.le_refl _)
      simp only [lastNlAux, if_neg hne]
      exact ih j hj hji fun k hk1 hk2 => hmax k hk1 (Nat.le_succ_of_le hk2)

theorem lastNlAux_eq_none (s : Str) :
    ∀ m, (∀ k, k ≤ m → s[k]? ≠ some '\n') → lastNlAux s m = none := by
  intro m
  induction m with
  | zero => intro h; simp only [lastNlAux, if_neg (h 0 (Nat.le_refl 0))]
  | succ i ih =>
    intro h
    simp only [lastNlAux, if_neg (h (i + 1) (Nat.le_refl _))]
    exact ih fun k hk => h k (Nat.le_succ_of_le hk)

theorem lastNl_sound (s : Str) (upTo i : Nat) (h : lastNl s upTo = some i) :
    s[i]? = some '\n' ∧ i ≤ min upTo (s.length - 1) :=
  lastNlAux_sound s _ i h

theorem lastNl_eq_some (s : Str) (upTo j : Nat)
    (hj : s[j]? = some '\n') (hjm : j ≤ upTo)
    (hmax : ∀ k, j < k → k ≤ upTo → s[k]? ≠ some '\n') :
    lastNl s upTo = some j := by
  have hjlen : j < s.length := by
    by_contra hge
    rw [List.getElem?_eq_none (Nat.le_of_not_lt hge)] at hj
    exact Option.noConfusion hj
  have hjm2 : j ≤ min upTo (s.length - 1) :=
    Nat.le_min.mpr ⟨hjm, Nat.le_sub_one_of_lt hjlen⟩
  exact lastNlAux_eq_some s _ j hj hjm2 fun k hk1 hk2 =>
    hmax k hk1 (Nat.le_trans hk2 (Nat.min_le_left _ _))

theorem lastNl_window_none (s : Str) (start upTo : Nat)
    (h : ∀ k, start < k → k ≤ upTo → s[k]? ≠ some '\n') :
    lastNl s upTo = none ∨ ∃ i, lastNl s upTo = some i ∧ i ≤ start := by
  cases hres : lastNl s upTo with
  | none => exact Or.inl rfl
  | some i =>
    right
    refine ⟨i, rfl, ?_⟩
    obtain ⟨hi1, hi2⟩ := lastNl_sound s _ i hres
    by_contra hgt
    exact h i (Nat.lt_of_not_le hgt)
      (Nat.le_trans hi2 (Nat.min_le_left _ _)) hi1

theorem chunkLoop_length_le (text : Str) (chunkSize : Nat) :
    ∀ fuel start c, c ∈ chunkLoop text chunkSize fuel start → c.length ≤ chunkSize := by
  intro fuel
  induction fuel with
  | zero => intro start c h; simp [chunkLoop] at h
  | succ f ih =>
    intro start c h
    simp only [chunkLoop] at h
    by_cases hs : start < text.length
    · simp only [hs, if_true] at h
      rcases List.mem_cons.mp h with hc | hc
      · subst hc
        have hsplit :
            (match lastNl text (min (start + chunkSize) text.length) with
              | some i => if i ≤ start then min (start + chunkSize) text.length else i
              | none => min (start + chunkSize) text.length) ≤ start + chunkSize := by
          cases hnl : lastNl text (min (start + chunkSize) text.length) with
          | none => exact Nat.min_le_left _ _
          | some i =>
            by_cases hi : i ≤ start
            · simp only [hi, if_true]; exact Nat.min_le_left _ _
            · simp only [hi, if_false]
              have := (lastNl_sound text _ i hnl).2
              calc i ≤ min (min (start + chunkSize) text.length) (text.length - 1) := this
                _ ≤ min (start + chunkSize) text.length := Nat.min_le_left _ _
                _ ≤ start + chunkSize := Nat.min_le_left _ _
        calc ((text.drop start).take _).length ≤ _ := List.length_take_le _ _
          _ ≤ chunkSize := Nat.sub_le_of_le_add (Nat.add_comm start chunkSize ▸ hsplit)
      · exact ih _ c hc
    · simp [hs] at h

theorem chunkTelegramMessage_length_le (text : Str) (chunkSize : Nat)
    (hpos : 0 < chunkSize) :
    ∀ c ∈ chunkTelegramMessage text chunkSize, c.length ≤ chunkSize := by
  intro c hc
  unfold chunkTelegramMessage at hc
  by_cases hle : text.length ≤ chunkSize
  · simp only [hle, if_true, List.mem_singleton] at hc
    exact hc ▸ hle
  · simp only [hle, if_false] at hc
    exact chunkLoop_length_le text chunkSize _ _ c hc

theorem chunkLoop_head_newline (text : Str) (chunkSize f start j : Nat)
    (hs : start < text.length)
    (hj : text[j]? = some '\n') (hj1 : start < j)
    (hj2 : j ≤ min (start + chunkSize) text.length)
    (hmax : ∀ k, j < k → k ≤ min (start + chunkSize) text.length →
      text[k]? ≠ some '\n') :
    (chunkLoop text chunkSize (f + 1) start).head? =
      some ((text.drop start).take (j - start)) := by
  have hnl : lastNl text (min (start + chunkSize) text.length) = some j :=
    lastNl_eq_some text _ j hj hj2 hmax
  simp only [chunkLoop, if_pos hs]
  rw [hnl]
  simp only [if_neg (Nat.not_le.mpr hj1)]
  rfl

theorem chunkLoop_head_hardcut (text : Str) (chunkSize f start : Nat)
    (hs : start < text.length)
    (hnone : ∀ k, start < k → k ≤ min (start + chunkSize) text.length →
      text[k]? ≠ some '\n') :
    (chunkLoop text chunkSize (f + 1) start).head? =
      some ((text.drop start).take (min (start + chunkSize) text.length - start)) := by
  rcases lastNl_window_none text start (min (start + chunkSize) text.length) hnone with
    hn | ⟨i, hi, hile⟩
  · simp only [chunkLoop, if_pos hs]
    rw [hn]
    rfl
  · simp only [chunkLoop, if_pos hs]
    rw [hi]
    simp only [if_pos hile]
    rfl

/-! ### Send-loop lemmas -/

theorem sendChunksLoop_allOk (env : Env) (dp : Bool) :
    ∀ chunks, (∀ c ∈ chunks, env.msgOk c = true) →
      sendChunksLoop env dp chunks =
        (chunks.map (fun c => TgCall.sendMessage c dp), Except.ok ()) := by
  intro chunks
  induction chunks with
  | nil => intro _; rfl
  | cons c rest ih =>
    intro h
    have hc := h c (List.mem_cons_self c rest)
    simp only [sendChunksLoop, hc, if_true,
      ih fun x hx => h x (List.mem_cons_of_mem c hx), List.map_cons]

theorem sendChunksLoop_abort (env : Env) (dp : Bool) (c : Str) :
    ∀ pre post, (∀ x ∈ pre, env.msgOk x = true) → env.msgOk c = false →
      sendChunksLoop env dp (pre ++ c :: post) =
        ((pre ++ [c]).map (fun x => TgCall.sendMessage x dp), Except.error tgErr) := by
  intro pre
  induction pre with
  | nil =>
    intro post _ hc
    simp only [List.nil_append, sendChunksLoop, hc, Bool.false_eq_true, if_false,
      List.map_cons, List.map_nil]
  | cons x xs ih =>
    intro post hpre hc
    have hx := hpre x (List.mem_cons_self x xs)
    simp only [List.cons_append, sendChunksLoop, hx, if_true, List.append_eq]
    rw [ih post (fun y hy => hpre y (List.mem_cons_of_mem x hy)) hc]
    simp only [List.cons_append, List.map_cons]

/-! ### Per-post loop lemmas -/

theorem processTweets_cons (env : Env) (ar : Args) (u : Str)
    (md : List MediaObj) (st : St) (t : Tweet) (rest : List Tweet) :
    processTweets env ar u md st (t :: rest) =
      match (deliver env ar md t).2 with
      | Except.error e => (st, (deliver env ar md t).1, Except.error e)
      | Except.ok _ =>
        match saveState env st (some t.id) (some u) with
        | (st1, Except.error e) => (st1, (deliver env ar md t).1, Except.error e)
        | (st1, Except.ok _) =>
          ((processTweets env ar u md st1 rest).1,
            (deliver env ar md t).1 ++ (processTweets env ar u md st1 rest).2.1,
            (processTweets env ar u md st1 rest).2.2) := rfl

theorem finalStore_cons (u : Str) (st : St) (t : Tweet) (rest : List Tweet) :
    finalStore u st (t :: rest) = finalStore u ⟨some t.id, some u⟩ rest := rfl

theorem finalStore_getLast (u : Str) :
    ∀ tweets st lt, tweets.getLast? = some lt →
      finalStore u st tweets = ⟨some lt.id, some u⟩ := by
  intro tweets
  induction tweets with
  | nil => intro st lt h; exact Option.noConfusion h
  | cons t rest ih =>
    intro st lt h
    cases rest with
    | nil =>
      cases h
      rfl
    | cons x xs =>
      rw [List.getLast?_cons_cons] at h
      exact ih ⟨some t.id, some u⟩ lt h

theorem processTweets_allOk (env : Env) (ar : Args) (u : Str) (md : List MediaObj) :
    ∀ tweets st,
      (∀ t ∈ tweets, (deliver env ar md t).2 = Except.ok ()) →
      (∀ t ∈ tweets, env.saveOk (some t.id) (some u) = true) →
      processTweets env ar u md st tweets =
        (finalStore u st tweets,
          tweets.flatMap (fun t => (deliver env ar md t).1), Except.ok ()) := by
  intro tweets
  induction tweets with
  | nil => intro st _ _; rfl
  | cons t rest ih =>
    intro st hdel hsave
    rw [processTweets_cons, hdel t (List.mem_cons_self t rest)]
    simp only [saveState, hsave t (List.mem_cons_self t rest), if_true]
    rw [ih ⟨some t.id, some u⟩ (fun x hx => hdel x (List.mem_cons_of_mem t hx))
      (fun x hx => hsave x (List.mem_cons_of_mem t hx))]
    rw [finalStore_cons, List.flatMap_cons]

theorem processTweets_crash (env : Env) (ar : Args) (u : Str) (md : List MediaObj)
    (t : Tweet) (post : List Tweet) :
    ∀ pre st,
      (∀ x ∈ pre, (deliver env ar md x).2 = Except.ok ()) →
      (∀ x ∈ pre, env.saveOk (some x.id) (some u) = true) →
      (∃ e, (deliver env ar md t).2 = Except.error e) →
      (processTweets env ar u md st (pre ++ t :: post)).1 = finalStore u st pre ∧
        ∃ e, (processTweets env ar u md st (pre ++ t :: post)).2.2 = Except.error e := by
  intro pre
  induction pre with
  | nil =>
    intro st _ _ hfail
    obtain ⟨e, he⟩ := hfail
    rw [List.nil_append, processTweets_cons, he]
    exact ⟨rfl, e, rfl⟩
  | cons x xs ih =>
    intro st hdel hsave hfail
    rw [List.cons_append, processTweets_cons, hdel x (List.mem_cons_self x xs)]
    simp only [saveState, hsave x (List.mem_cons_self x xs), if_true]
    obtain ⟨h1, h2⟩ := ih ⟨some x.id, some u⟩
      (fun y hy => hdel y (List.mem_cons_of_mem x hy))
      (fun y hy => hsave y (List.mem_cons_of_mem x hy)) hfail
    exact ⟨by rw [finalStore_cons]; exact h1, h2⟩

theorem processTweets_saveFail (env : Env) (ar : Args) (u : Str) (md : List MediaObj)
    (t : Tweet) (rest : List Tweet) (st : St)
    (hdel : (deliver env ar md t).2 = Except.ok ())
    (hsv : env.saveOk (some t.id) (some u) = false) :
    processTweets env ar u md st (t :: rest) =
      (st, (deliver env ar md t).1, Except.error storeErr) := by
  rw [processTweets_cons, hdel]
  simp [saveState, hsv]

theorem deliver_dryRun (env : Env) (ar : Args) (md : List MediaObj)
    (h : ar.dryRun = true) (t : Tweet) : deliver env ar md t = ([], Except.ok ()) := by
  simp [deliver, sendToTelegram, h]

/-! ### Run-path lemmas -/

theorem run_load_ok (env : Env) (ar : Args) (st0 : St) (h : env.loadFails = false) :
    run env ar st0 = runTry env ar st0 := by
  simp [run, h]

theorem runTry_timeline (env : Env) (ar : Args) (st0 : St) (u : Str)
    (data : List Tweet) (mo : List MediaObj)
    (hu : st0.user_id = some u) (htid : ar.tweetId = none)
    (htl : env.timeline = Except.ok (data, mo)) (hne : sortTweets data ≠ []) :
    runTry env ar st0 =
      match processTweets env ar u mo st0 (sortTweets data) with
      | (st2, calls, Except.ok _) => ⟨st2, calls, false, Except.ok ()⟩
      | (st2, calls, Except.error e) => runCatch st2 calls e := by
  simp only [runTry, getUserIdWithCache, hu, htid, fetchNewTweets, htl]
  rw [if_neg (by simpa using hne)]

theorem runTry_fetch_err (env : Env) (ar : Args) (st0 : St) (u : Str) (e : Err)
    (hu : st0.user_id = some u) (htid : ar.tweetId = none)
    (htl : env.timeline = Except.error e) :
    runTry env ar st0 = runCatch st0 [] e := by
  simp only [runTry, getUserIdWithCache, hu, htid, fetchNewTweets, htl]

theorem runTry_resolve_err (env : Env) (ar : Args) (st0 : St) (e : Err)
    (hu : st0.user_id = none) (hres : env.resolve = Except.error e) :
    runTry env ar st0 = runCatch st0 [] e := by
  simp only [runTry, getUserIdWithCache, hu, hres]

theorem runTry_resolve_save_fail (env : Env) (ar : Args) (st0 : St) (uid : Str)
    (hu : st0.user_id = none) (hres : env.resolve = Except.ok uid)
    (hsv : env.saveOk st0.last_id (some uid) = false) :
    runTry env ar st0 = ⟨st0, [], false, Except.error storeErr⟩ := by
  simp only [runTry, getUserIdWithCache, hu, hres, saveState, hsv,
    Bool.false_eq_true, if_false]
  rfl

theorem runTry_resolved_fetch_err (env : Env) (ar : Args) (st0 : St) (uid : Str)
    (e : Err) (hu : st0.user_id = none) (hres : env.resolve = Except.ok uid)
    (hsv : env.saveOk st0.last_id (some uid) = true) (htid : ar.tweetId = none)
    (htl : env.timeline = Except.error e) :
    runTry env ar st0 = runCatch ⟨st0.last_id, some uid⟩ [] e := by
  simp only [runTry, getUserIdWithCache, hu, hres, saveState, hsv, if_true,
    htid, fetchNewTweets, htl]

theorem runTry_single (env : Env) (ar : Args) (st0 : St) (u : Str) (tid : Str)
    (t : Tweet) (mo : List MediaObj)
    (hu : st0.user_id = some u) (htid : ar.tweetId = some tid)
    (hsg : env.single tid = Except.ok (t, mo)) :
    runTry env ar st0 =
      match processTweets env ar u mo st0 [t] with
      | (st2, calls, Except.ok _) => ⟨st2, calls, false, Except.ok ()⟩
      | (st2, calls, Except.error e) => runCatch st2 calls e := by
  simp only [runTry, getUserIdWithCache, hu, htid, fetchSpecificTweet, hsg,
    List.length_cons, List.length_nil]
  rfl

/-! ### Further helper lemmas -/

theorem finalStore_last_id (u : Str) :
    ∀ pre (st : St), (finalStore u st pre).last_id =
      (match pre.getLast? with
        | none => st.last_id
        | some x => some x.id) := by
  intro pre
  induction pre with
  | nil => intro st; rfl
  | cons t rest ih =>
    intro st
    rw [finalStore_cons]
    cases rest with
    | nil => rfl
    | cons x xs =>
      rw [ih ⟨some t.id, some u⟩, List.getLast?_cons_cons]
      cases h : (x :: xs).getLast? with
      | none => simp at h
      | some y => rfl

theorem flatMap_nil_fun {α β : Type} (l : List α) :
    l.flatMap (fun _ => ([] : List β)) = [] := by
  induction l with
  | nil => rfl
  | cons x xs ih => rw [List.flatMap_cons, ih]; rfl

theorem generateCaption_long (msg : Str) (h : msg.length > captionMax) :
    generateCaption msg = msg.take (captionMax - 3) ++ "...".data ∧
      (generateCaption msg).length = captionMax := by
  have h2 : ¬msg.length ≤ captionMax := Nat.not_le.mpr h
  constructor
  · simp [generateCaption, h2]
  · simp only [generateCaption, h2, if_false, List.length_append, List.length_take]
    have hmin : min (captionMax - 3) msg.length = captionMax - 3 :=
      Nat.min_eq_left (by omega)
    rw [hmin]
    rfl

theorem collapseWsAux_no_nl : ∀ (b : Bool) (s : Str), '\n' ∉ collapseWsAux b s := by
  intro b s
  induction s generalizing b with
  | nil => simp [collapseWsAux]
  | cons c rest ih =>
    simp only [collapseWsAux]
    by_cases hw : jsWs c
    · simp only [hw, if_true]
      cases b with
      | true => exact ih true
      | false =>
        intro hmem
        rcases List.mem_cons.mp hmem with hc | hc
        · exact absurd hc.symm (by decide)
        · exact ih true hc
    · simp only [hw, Bool.false_eq_true, if_false]
      intro hmem
      rcases List.mem_cons.mp hmem with hc | hc
      · subst hc
        simp [jsWs] at hw
      · exact ih false hc

theorem collapseNlGo_no_nl : ∀ (f : Nat) (s : Str), '\n' ∉ s → collapseNlGo f s = s := by
  intro f
  induction f with
  | zero => intro s _; rfl
  | succ g ih =>
    intro s hs
    cases s with
    | nil => rfl
    | cons c t =>
      have hc : c ≠ '\n' := fun hcc => hs (hcc ▸ List.mem_cons_self c t)
      simp only [collapseNlGo, if_neg hc]
      rw [ih t fun hm => hs (List.mem_cons_of_mem c hm)]

theorem collapseNl_no_nl (s : Str) (hs : '\n' ∉ s) : collapseNl s = s :=
  collapseNlGo_no_nl s.length s hs

theorem trimWs_subset (s : Str) : ∀ c, c ∈ trimWs s → c ∈ s := by
  intro c hc
  unfold trimWs at hc
  rw [List.mem_reverse] at hc
  have h1 := (List.dropWhile_sublist jsWs).mem hc
  rw [List.mem_reverse] at h1
  exact (List.dropWhile_sublist jsWs).mem h1

theorem collapseWs_no_nl (s : Str) : '\n' ∉ collapseWs s :=
  collapseWsAux_no_nl false s

theorem extractTweetText_no_nl (tweet : Tweet) : '\n' ∉ extractTweetText tweet := by
  intro hmem
  unfold extractTweetText at hmem
  have h1 := trimWs_subset _ _ hmem
  rw [collapseNl_no_nl _ (collapseWs_no_nl _)] at h1
  exact collapseWs_no_nl _ h1

theorem removeAllGo_not_occurs (pat : Str) :
    ∀ f s, s.length ≤ f → occursIn pat s = false → removeAllGo pat f s = s := by
  intro f
  induction f with
  | zero => intro s _ _; rfl
  | succ g ih =>
    intro s hlen hocc
    cases s with
    | nil => rfl
    | cons c rest =>
      simp only [occursIn, Bool.or_eq_false_iff] at hocc
      obtain ⟨hp, ho⟩ := hocc
      simp only [removeAllGo, hp, Bool.and_false, Bool.false_eq_true, if_false]
      rw [ih rest (Nat.le_of_succ_le_succ hlen) ho]

theorem removeAll_not_occurs (pat s : Str) (h : occursIn pat s = false) :
    removeAll pat s = s :=
  removeAllGo_not_occurs pat s.length s (Nat.le_refl _) h

theorem isPrefixList_append (pat s : Str) : isPrefixList pat (pat ++ s) = true := by
  induction pat with
  | nil => rfl
  | cons p ps ih => simp [isPrefixList, ih]

theorem removeAllGo_fuel (pat : Str) :
    ∀ f1 f2 s, s.length ≤ f1 → s.length ≤ f2 →
      removeAllGo pat f1 s = removeAllGo pat f2 s := by
  intro f1
  induction f1 with
  | zero =>
    intro f2 s hl1 _
    have hs : s = [] := List.length_eq_zero.mp (Nat.le_zero.mp hl1)
    subst hs
    cases f2 with
    | zero => rfl
    | succ g => rfl
  | succ g1 ih =>
    intro f2 s hl1 hl2
    cases s with
    | nil =>
      cases f2 with
      | zero => rfl
      | succ g2 => rfl
    | cons c rest =>
      cases f2 with
      | zero => exact absurd hl2 (by simp)
      | succ g2 =>
        simp only [removeAllGo]
        simp only [List.length_cons] at hl1 hl2
        cases hcond : (!pat.isEmpty && isPrefixList pat (c :: rest)) with
        | true =>
          simp only [if_true]
          have hpat : pat ≠ [] := by
            intro hp
            subst hp
            simp at hcond
          have hplen : 1 ≤ pat.length := by
            cases pat with
            | nil => exact absurd rfl hpat
            | cons p ps => simp
          have hdlen : ((c :: rest).drop pat.length).length ≤ g1 := by
            rw [List.length_drop]
            simp only [List.length_cons]
            omega
          have hdlen2 : ((c :: rest).drop pat.length).length ≤ g2 := by
            rw [List.length_drop]
            simp only [List.length_cons]
            omega
          exact ih g2 _ hdlen hdlen2
        | false =>
          simp only [Bool.false_eq_true, if_false]
          rw [ih g2 rest (by omega) (by omega)]

theorem removeAll_strip_head (pat s : Str) (hpat : pat ≠ []) :
    removeAll pat (pat ++ s) = removeAll pat s := by
  obtain ⟨p, ps, hp⟩ : ∃ p ps, pat = p :: ps := by
    cases pat with
    | nil => exact absurd rfl hpat
    | cons p ps => exact ⟨p, ps, rfl⟩
  subst hp
  show removeAllGo (p :: ps) ((p :: ps) ++ s).length ((p :: ps) ++ s) =
    removeAll (p :: ps) s
  have hpre : isPrefixList (p :: ps) ((p :: ps) ++ s) = true :=
    isPrefixList_append (p :: ps) s
  rw [show ((p :: ps) ++ s).length = ((ps ++ s).length) + 1 from by
    simp [List.length_append, List.length_cons]]
  rw [show (p :: ps) ++ s = p :: (ps ++ s) from rfl]
  simp only [removeAllGo]
  rw [show p :: (ps ++ s) = (p :: ps) ++ s from rfl]
  simp only [hpre, List.isEmpty_cons, Bool.not_false, Bool.and_self, if_true,
    List.drop_left]
  unfold removeAll
  apply removeAllGo_fuel
  · rw [List.length_append]
    omega
  · exact Nat.le_refl _

/-! ### Claims -/

/-- C1: For every run, the posts fetched in that run are delivered
(and the cursor advanced) in lexicographic ascending order of their id
strings, regardless of the order the source API returned them in; the
comparison is string/lexicographic (id 10 sorts before id 9), not
numeric parsing.  Conjuncts: the sort permutes the fetched posts; the
result is sorted under the lexicographic id order; `fetchNewTweets`
returns exactly that sorted list; lexicographic (not numeric)
comparison on the concrete ids 9 and 10; and an all-success run
delivers in sorted order with the final cursor at the sorted-last
id. -/
theorem C1_lexicographic_order :
    (∀ data : List Tweet, List.Perm (sortTweets data) data)
    ∧ (∀ data : List Tweet, List.Sorted tweetLe (sortTweets data))
    ∧ (∀ (env : Env) (uid : Str) (sinceId : Option Str) (rts rps : Bool) (mx : Nat)
        (data : List Tweet) (mo : List MediaObj),
        env.timeline = Except.ok (data, mo) →
        fetchNewTweets env uid sinceId rts rps mx = Except.ok (sortTweets data, mo))
    ∧ sortTweets [⟨"9".data, none, none, [], []⟩, ⟨"10".data, none, none, [], []⟩] =
        [⟨"10".data, none, none, [], []⟩, ⟨"9".data, none, none, [], []⟩]
    ∧ (∀ (env : Env) (ar : Args) (st0 : St) (u : Str) (data : List Tweet)
        (mo : List MediaObj) (lt : Tweet),
        env.loadFails = false → st0.user_id = some u → ar.tweetId = none →
        env.timeline = Except.ok (data, mo) →
        (sortTweets data).getLast? = some lt →
        (∀ t ∈ sortTweets data, (deliver env ar mo t).2 = Except.ok ()) →
        (∀ t ∈ sortTweets data, env.saveOk (some t.id) (some u) = true) →
        run env ar st0 =
          ⟨⟨some lt.id, some u⟩,
            (sortTweets data).flatMap (fun t => (deliver env ar mo t).1),
            false, Except.ok ()⟩) := by
  refine ⟨sortTweets_perm, sortTweets_sorted, ?_, by decide, ?_⟩
  · intro env uid sinceId rts rps mx data mo htl
    simp [fetchNewTweets, htl]
  · intro env ar st0 u data mo lt hload hu htid htl hlast hdel hsave
    have hne : sortTweets data ≠ [] := by
      intro hnil
      rw [hnil] at hlast
      exact Option.noConfusion hlast
    rw [run_load_ok env ar st0 hload,
      runTry_timeline env ar st0 u data mo hu htid htl hne,
      processTweets_allOk env ar u mo (sortTweets data) st0 hdel hsave,
      finalStore_getLast u (sortTweets data) st0 lt hlast]

/-- Witness for C1 at the concrete timeline [id 2, id 10]: the run
delivers id 10 first (lexicographically smaller) and the cursor ends
at id 2 (lexicographically larger). -/
theorem C1_lexicographic_order_witness :
    run envC1 arLive ⟨some "0".data, some "u".data⟩ =
      ⟨⟨some "2".data, some "u".data⟩,
        (sortTweets [tA, tB]).flatMap (fun t => (deliver envC1 arLive [] t).1),
        false, Except.ok ()⟩ :=
  C1_lexicographic_order.2.2.2.2 envC1 arLive ⟨some "0".data, some "u".data⟩
    "u".data [tA, tB] [] tA rfl rfl rfl rfl (by decide) (by decide) (by decide)

/-- C2: During the per-post loop, after each successful delivery the
persisted last_id is set to that post's id before the next post is
processed; hence if delivery of post k of n fails fatally, the
persisted cursor equals post k-1's id (or is unchanged when k = 1),
never post n's id. -/
theorem C2_crash_cursor :
    ∀ (env : Env) (ar : Args) (u : Str) (md : List MediaObj) (st : St)
      (pre : List Tweet) (t : Tweet) (post : List Tweet),
      (∀ x ∈ pre, (deliver env ar md x).2 = Except.ok ()) →
      (∀ x ∈ pre, env.saveOk (some x.id) (some u) = true) →
      (∃ e, (deliver env ar md t).2 = Except.error e) →
      (processTweets env ar u md st (pre ++ t :: post)).1.last_id =
        (match pre.getLast? with
          | none => st.last_id
          | some x => some x.id) ∧
      ∃ e, (processTweets env ar u md st (pre ++ t :: post)).2.2 = Except.error e := by
  intro env ar u md st pre t post hdel hsave hfail
  obtain ⟨h1, h2⟩ := processTweets_crash env ar u md t post pre st hdel hsave hfail
  exact ⟨by rw [h1, finalStore_last_id], h2⟩

/-- Witness for C2: delivery of post 2 of 2 (id 3) fails after post 1
(id 2) succeeded, so the run aborts with the persisted cursor at id 2,
not at the failing post. -/
theorem C2_crash_cursor_witness :
    (processTweets env2 arLive "u".data [] ⟨some "0".data, some "u".data⟩
        ([tA] ++ tFail :: [])).1.last_id = some "2".data ∧
      ∃ e, (processTweets env2 arLive "u".data [] ⟨some "0".data, some "u".data⟩
        ([tA] ++ tFail :: [])).2.2 = Except.error e :=
  C2_crash_cursor env2 arLive "u".data [] ⟨some "0".data, some "u".data⟩ [tA] tFail []
    (by decide) (by decide) ⟨tgErr, by decide⟩

/-- C3: A run in which the fetch or the account-id resolution raises
the rate-limited (429) condition completes non-fatally as a soft
success: the warning is logged, zero posts are delivered, and the
persisted last_id is unchanged.  The three conjuncts cover resolution
429, fetch 429 with cached account id, and fetch 429 after a fresh
resolution. -/
theorem C3_rate_limit_soft :
    (∀ (env : Env) (ar : Args) (st0 : St) (e : Err),
      env.loadFails = false → st0.user_id = none →
      env.resolve = Except.error e → e.is429 = true →
      run env ar st0 = ⟨st0, [], true, Except.ok ()⟩)
    ∧ (∀ (env : Env) (ar : Args) (st0 : St) (u : Str) (e : Err),
      env.loadFails = false → st0.user_id = some u → ar.tweetId = none →
      env.timeline = Except.error e → e.is429 = true →
      run env ar st0 = ⟨st0, [], true, Except.ok ()⟩)
    ∧ (∀ (env : Env) (ar : Args) (st0 : St) (uid : Str) (e : Err),
      env.loadFails = false → st0.user_id = none →
      env.resolve = Except.ok uid → env.saveOk st0.last_id (some uid) = true →
      ar.tweetId = none → env.timeline = Except.error e → e.is429 = true →
      run env ar st0 = ⟨⟨st0.last_id, some uid⟩, [], true, Except.ok ()⟩) := by
  refine ⟨?_, ?_, ?_⟩
  · intro env ar st0 e hload hu hres h429
    rw [run_load_ok env ar st0 hload, runTry_resolve_err env ar st0 e hu hres]
    simp [runCatch, h429]
  · intro env ar st0 u e hload hu htid htl h429
    rw [run_load_ok env ar st0 hload, runTry_fetch_err env ar st0 u e hu htid htl]
    simp [runCatch, h429]
  · intro env ar st0 uid e hload hu hres hsv htid htl h429
    rw [run_load_ok env ar st0 hload,
      runTry_resolved_fetch_err env ar st0 uid e hu hres hsv htid htl]
    simp [runCatch, h429]

/-- Witness for C3: a 429 timeline fetch leaves the cursor at id 7,
issues no Telegram call, warns, and ends as a success. -/
theorem C3_rate_limit_soft_witness :
    run envRL arLive ⟨some "7".data, some "u".data⟩ =
      ⟨⟨some "7".data, some "u".data⟩, [], true, Except.ok ()⟩ :=
  C3_rate_limit_soft.2.1 envRL arLive ⟨some "7".data, some "u".data⟩ "u".data rlErr
    rfl rfl rfl rfl rfl

/-- C4: For every message with a non-empty media list, if the media
send (single-media or grouped-media) raises a failure, the engine
still delivers the full text body via the chunked text-only send, and
the post does not terminate in the Failed state (the overall result is
success, given the text sends themselves succeed). -/
theorem C4_media_fallback :
    (∀ (env : Env) (msg : Str) (m : MediaItem) (dp : Bool),
      env.photoOk m.url (generateCaption msg) = false →
      (∀ c ∈ chunkTelegramMessage msg, env.msgOk c = true) →
      sendToTelegram env msg [m] dp false =
        (TgCall.sendPhoto m.url (generateCaption msg) ::
          (chunkTelegramMessage msg).map (fun c => TgCall.sendMessage c dp),
          Except.ok ()))
    ∧ (∀ (env : Env) (msg : Str) (m1 m2 : MediaItem) (rest : List MediaItem)
        (dp : Bool),
      env.groupOk (buildGroup msg (m1 :: m2 :: rest)) = false →
      (∀ c ∈ chunkTelegramMessage msg, env.msgOk c = true) →
      sendToTelegram env msg (m1 :: m2 :: rest) dp false =
        (TgCall.sendMediaGroup (buildGroup msg (m1 :: m2 :: rest)) ::
          (chunkTelegramMessage msg).map (fun c => TgCall.sendMessage c dp),
          Except.ok ())) := by
  constructor
  · intro env msg m dp hph htxt
    simp only [sendToTelegram, sendSingleMedia, sendTextMessageChunked, hph,
      Bool.false_eq_true, if_false]
    rw [sendChunksLoop_allOk env dp _ htxt]
    simp
  · intro env msg m1 m2 rest dp hgr htxt
    simp only [sendToTelegram, sendMediaGroup, sendTextMessageChunked, hgr,
      Bool.false_eq_true, if_false]
    rw [sendChunksLoop_allOk env dp _ htxt]
    simp

/-- Witness for C4: a failing single-media send falls back to the
chunked text send and the post still succeeds. -/
theorem C4_media_fallback_witness :
    sendToTelegram envMediaFail "hi".data [mPhoto] false false =
      (TgCall.sendPhoto "p".data (generateCaption "hi".data) ::
        (chunkTelegramMessage "hi".data).map (fun c => TgCall.sendMessage c false),
        Except.ok ()) :=
  C4_media_fallback.1 envMediaFail "hi".data mPhoto false rfl (by decide)

/-- C5 counterexample: a 1200-character body sent with a single media
item produces exactly one Telegram call (the photo with its truncated
1024-character caption) and no supplementary chunked-text send, so the
unabridged body is not delivered in full on the single-media path as
the claim states. -/
theorem C5_counterexample :
    sendToTelegram (allOkEnv (Except.ok ([], [])) noSingle)
        (List.replicate 1200 'a') [mPhoto] false false =
      ([TgCall.sendPhoto "p".data (List.replicate 1021 'a' ++ "...".data)],
        Except.ok ()) ∧
      (List.replicate 1200 'a').length > captionMax := by
  have hlen : (List.replicate 1200 'a').length = 1200 := List.length_replicate 1200 'a'
  constructor
  · have hcap : generateCaption (List.replicate 1200 'a') =
        List.replicate 1021 'a' ++ "...".data := by
      simp only [generateCaption, hlen]
      rw [if_neg (by decide), List.take_replicate]
      rfl
    simp only [sendToTelegram, sendSingleMedia, hcap]
    rfl
  · rw [hlen]
    decide

/-- C5 (amended): a body longer than the 1024-character caption limit
gets a caption of exactly the first 1021 characters plus an ellipsis
(1024 characters total) on both media paths; the unabridged body is
additionally delivered in full via the chunked-text send only for
grouped-media sends — a single-media send issues just the captioned
photo call, with no supplementary text. -/
theorem C5_caption_truncation :
    (∀ msg : Str, msg.length > captionMax →
      generateCaption msg = msg.take (captionMax - 3) ++ "...".data ∧
        (generateCaption msg).length = captionMax)
    ∧ (∀ (env : Env) (msg : Str) (m1 m2 : MediaItem) (rest : List MediaItem)
        (dp : Bool),
      msg.length > captionMax →
      env.groupOk (buildGroup msg (m1 :: m2 :: rest)) = true →
      (∀ c ∈ chunkTelegramMessage msg, env.msgOk c = true) →
      sendToTelegram env msg (m1 :: m2 :: rest) dp false =
        (TgCall.sendMediaGroup (buildGroup msg (m1 :: m2 :: rest)) ::
          (chunkTelegramMessage msg).map (fun c => TgCall.sendMessage c dp),
          Except.ok ()))
    ∧ (∀ (env : Env) (msg : Str) (m : MediaItem) (dp : Bool),
      env.photoOk m.url (generateCaption msg) = true →
      sendToTelegram env msg [m] dp false =
        ([TgCall.sendPhoto m.url (generateCaption msg)], Except.ok ())) := by
  refine ⟨generateCaption_long, ?_, ?_⟩
  · intro env msg m1 m2 rest dp hlong hgr htxt
    simp only [sendToTelegram, sendMediaGroup, sendTextMessageChunked, hgr, if_true,
      Bool.false_eq_true, if_false]
    rw [if_pos (Or.inl hlong)]
    rw [sendChunksLoop_allOk env dp _ htxt]
  · intro env msg m dp hph
    simp only [sendToTelegram, sendSingleMedia, hph, Bool.false_eq_true, if_false,
      if_true]

set_option maxRecDepth 8000 in
/-- Witness for C5 (amended): a 1025-character body with two media
items triggers the supplementary full-text send after the group
call. -/
theorem C5_caption_truncation_witness :
    sendToTelegram (allOkEnv (Except.ok ([], [])) noSingle)
        (List.replicate 1025 'a') [mPhoto, mPhoto2] false false =
      (TgCall.sendMediaGroup
          (buildGroup (List.replicate 1025 'a') [mPhoto, mPhoto2]) ::
        (chunkTelegramMessage (List.replicate 1025 'a')).map
          (fun c => TgCall.sendMessage c false),
        Except.ok ()) :=
  C5_caption_truncation.2.1 (allOkEnv (Except.ok ([], [])) noSingle)
    (List.replicate 1025 'a') mPhoto mPhoto2 [] false
    (by rw [List.length_replicate]; decide) rfl (by decide)

/-- C6 counterexample: an explicit-post run (tweet id 100) on a state
whose cursor is 999 leaves the persisted cursor at 100 — the delivery
of the explicitly named post does overwrite last_id, contradicting the
claim that the cursor is not advanced. -/
theorem C6_counterexample :
    (run env6 ar6 ⟨some "999".data, some "u".data⟩).st.last_id = some "100".data ∧
      (⟨some "999".data, some "u".data⟩ : St).last_id ≠ some "100".data := by
  constructor
  · decide
  · decide

/-- C6 (amended): with an explicit post id the run fetches and
delivers that single post bypassing the since-cursor (the outcome does
not depend on the stored last_id, which appears nowhere in the
conclusion), but the per-post loop still persists last_id = post.id,
so the persisted cursor is overwritten by that delivery. -/
theorem C6_explicit_post :
    ∀ (env : Env) (ar : Args) (st0 : St) (u : Str) (tid : Str) (t : Tweet)
      (mo : List MediaObj),
      env.loadFails = false → st0.user_id = some u → ar.tweetId = some tid →
      env.single tid = Except.ok (t, mo) →
      (deliver env ar mo t).2 = Except.ok () →
      env.saveOk (some t.id) (some u) = true →
      run env ar st0 =
        ⟨⟨some t.id, some u⟩, (deliver env ar mo t).1, false, Except.ok ()⟩ := by
  intro env ar st0 u tid t mo hload hu htid hsg hdel hsv
  rw [run_load_ok env ar st0 hload, runTry_single env ar st0 u tid t mo hu htid hsg]
  rw [processTweets_allOk env ar u mo [t] st0
    (by intro x hx; rw [List.mem_singleton] at hx; rw [hx]; exact hdel)
    (by intro x hx; rw [List.mem_singleton] at hx; rw [hx]; exact hsv)]
  simp [finalStore, List.flatMap_cons]

/-- Witness for C6 (amended): the explicit post with id 100 is
delivered and the cursor is overwritten to 100 regardless of the
previous cursor 999. -/
theorem C6_explicit_post_witness :
    run env6 ar6 ⟨some "999".data, some "u".data⟩ =
      ⟨⟨some "100".data, some "u".data⟩, (deliver env6 ar6 [] tOld).1, false,
        Except.ok ()⟩ :=
  C6_explicit_post env6 ar6 ⟨some "999".data, some "u".data⟩ "u".data "100".data
    tOld [] rfl rfl rfl (by decide) (by decide) rfl

/-- C7: chunkTelegramMessage splits every input into pieces each no
longer than 4096 characters, cutting each piece at the last newline at
or before the window limit when one exists strictly inside the current
window and hard-cutting at the limit otherwise (stated for the piece
produced at an arbitrary loop position `start`); the pieces are sent
in order and a mid-sequence send failure aborts all subsequent
pieces. -/
theorem C7_chunking :
    (∀ (text : Str), ∀ c ∈ chunkTelegramMessage text 4096, c.length ≤ 4096)
    ∧ (∀ (text : Str) (f start j : Nat), start < text.length →
      text[j]? = some '\n' → start < j →
      j ≤ min (start + 4096) text.length →
      (∀ k, j < k → k ≤ min (start + 4096) text.length → text[k]? ≠ some '\n') →
      (chunkLoop text 4096 (f + 1) start).head? =
        some ((text.drop start).take (j - start)))
    ∧ (∀ (text : Str) (f start : Nat), start < text.length →
      (∀ k, start < k → k ≤ min (start + 4096) text.length →
        text[k]? ≠ some '\n') →
      (chunkLoop text 4096 (f + 1) start).head? =
        some ((text.drop start).take (min (start + 4096) text.length - start)))
    ∧ (∀ (env : Env) (dp : Bool) (msg : Str),
      (∀ c ∈ chunkTelegramMessage msg, env.msgOk c = true) →
      sendTextMessageChunked env msg dp =
        ((chunkTelegramMessage msg).map (fun c => TgCall.sendMessage c dp),
          Except.ok ()))
    ∧ (∀ (env : Env) (dp : Bool) (msg : Str) (pre : List Str) (c : Str)
        (post : List Str),
      chunkTelegramMessage msg = pre ++ c :: post →
      (∀ x ∈ pre, env.msgOk x = true) → env.msgOk c = false →
      sendTextMessageChunked env msg dp =
        ((pre ++ [c]).map (fun x => TgCall.sendMessage x dp),
          Except.error tgErr)) := by
  refine ⟨?_, ?_, ?_, ?_, ?_⟩
  · intro text c hc
    exact chunkTelegramMessage_length_le text 4096 (by decide) c hc
  · intro text f start j hs hj hj1 hj2 hmax
    exact chunkLoop_head_newline text 4096 f start j hs hj hj1 hj2 hmax
  · intro text f start hs hnone
    exact chunkLoop_head_hardcut text 4096 f start hs hnone
  · intro env dp msg h
    exact sendChunksLoop_allOk env dp _ h
  · intro env dp msg pre c post hchunks hpre hc
    unfold sendTextMessageChunked
    rw [hchunks]
    exact sendChunksLoop_abort env dp c pre post hpre hc

/-- Witness for C7: length bound on a short text; newline cut for the
window of "a\nbb" at position 0; hard cut for "ab"; in-order success;
and the abort on a failing chunk. -/
theorem C7_chunking_witness :
    "hi".data.length ≤ 4096
    ∧ (chunkLoop "a\nbb".data 4096 1 0).head? =
        some (("a\nbb".data.drop 0).take (1 - 0))
    ∧ (chunkLoop "ab".data 4096 1 0).head? =
        some (("ab".data.drop 0).take (min (0 + 4096) "ab".data.length - 0))
    ∧ sendTextMessageChunked envC1 "hi".data false =
        ((chunkTelegramMessage "hi".data).map (fun c => TgCall.sendMessage c false),
          Except.ok ())
    ∧ sendTextMessageChunked env2 "/status/3".data false =
        (([] ++ ["/status/3".data]).map (fun x => TgCall.sendMessage x false),
          Except.error tgErr) :=
  ⟨C7_chunking.1 "hi".data "hi".data (by decide),
    C7_chunking.2.1 "a\nbb".data 0 0 1 (by decide) (by decide) (by decide)
      (by decide)
      (by
        intro k h1 h2
        have hk : k ≤ 4 := by simpa using h2
        rcases (by omega : k = 2 ∨ k = 3 ∨ k = 4) with h | h | h <;> subst h <;>
          decide),
    C7_chunking.2.2.1 "ab".data 0 0 (by decide)
      (by
        intro k h1 h2
        have hk : k ≤ 2 := by simpa using h2
        rcases (by omega : k = 1 ∨ k = 2) with h | h <;> subst h <;> decide),
    C7_chunking.2.2.2.1 envC1 false "hi".data (by decide),
    C7_chunking.2.2.2.2 env2 false "/status/3".data [] "/status/3".data []
      (by decide) (by intro x hx; simp at hx) (by decide)⟩

/-- C8: Every state-store failure is fatal: a failed state load
terminates the run with that error before anything else happens, a
failed write of the freshly resolved account id terminates the run
with the store error, and a failed write after a delivered post
terminates the run with the store error (none are swallowed, since the
store errors carry no 429 marker). -/
theorem C8_state_store_fatal :
    (∀ (env : Env) (ar : Args) (st0 : St), env.loadFails = true →
      run env ar st0 = ⟨st0, [], false, Except.error env.loadErr⟩)
    ∧ (∀ (env : Env) (ar : Args) (st0 : St) (uid : Str),
      env.loadFails = false → st0.user_id = none →
      env.resolve = Except.ok uid → env.saveOk st0.last_id (some uid) = false →
      run env ar st0 = ⟨st0, [], false, Except.error storeErr⟩)
    ∧ (∀ (env : Env) (ar : Args) (st0 : St) (u : Str) (data : List Tweet)
        (mo : List MediaObj) (t : Tweet) (rest : List Tweet),
      env.loadFails = false → st0.user_id = some u → ar.tweetId = none →
      env.timeline = Except.ok (data, mo) → sortTweets data = t :: rest →
      (deliver env ar mo t).2 = Except.ok () →
      env.saveOk (some t.id) (some u) = false →
      run env ar st0 =
        ⟨st0, (deliver env ar mo t).1, false, Except.error storeErr⟩) := by
  refine ⟨?_, ?_, ?_⟩
  · intro env ar st0 h
    simp [run, h]
  · intro env ar st0 uid hload hu hres hsv
    rw [run_load_ok env ar st0 hload,
      runTry_resolve_save_fail env ar st0 uid hu hres hsv]
  · intro env ar st0 u data mo t rest hload hu htid htl hsort hdel hsv
    rw [run_load_ok env ar st0 hload,
      runTry_timeline env ar st0 u data mo hu htid htl
        (by rw [hsort]; exact List.cons_ne_nil t rest),
      hsort, processTweets_saveFail env ar u mo t rest st0 hdel hsv]
    simp [runCatch, storeErr]

/-- Witness for C8: the Gist write after the delivery of the post with
id 2 fails, and the run ends fatally with the store error while the
cursor keeps its previous value. -/
theorem C8_state_store_fatal_witness :
    run envSaveFail arLive ⟨some "0".data, some "u".data⟩ =
      ⟨⟨some "0".data, some "u".data⟩, (deliver envSaveFail arLive [] tA).1, false,
        Except.error storeErr⟩ :=
  C8_state_store_fatal.2.2 envSaveFail arLive ⟨some "0".data, some "u".data⟩
    "u".data [tA] [] tA [] rfl rfl rfl rfl (by decide) (by decide) rfl

/-- C9 counterexample: for the input text "a\n\nb" with no URL
entities the transform returns "a b" — the blank-line paragraph break
is not preserved as a double newline, contradicting the claim's
whitespace clause. -/
theorem C9_counterexample :
    extractTweetText tNl = "a b".data ∧ extractTweetText tNl ≠ "a\n\nb".data := by
  constructor
  · decide
  · decide

/-- C9 (amended): the transform removes every occurrence of each
listed shortened URL (left-to-right non-overlapping replaceAll
semantics: an untouched text has no occurrence removed, and a leading
occurrence is stripped), then collapses every whitespace run —
including blank-line paragraph breaks — to single spaces and trims, so
the output never contains a newline; the round-trip example holds. -/
theorem C9_text_transform :
    extractTweetText ⟨"1".data, some "check this https://t.co/abc out".data, none,
        ["https://t.co/abc".data], []⟩ = "check this out".data
    ∧ (∀ tweet : Tweet, '\n' ∉ extractTweetText tweet)
    ∧ (∀ pat s : Str, occursIn pat s = false → removeAll pat s = s)
    ∧ (∀ pat s : Str, pat ≠ [] → removeAll pat (pat ++ s) = removeAll pat s) :=
  ⟨by decide, extractTweetText_no_nl, removeAll_not_occurs, removeAll_strip_head⟩

/-- Witness for C9 (amended): the URL-removal clauses applied at
concrete strings. -/
theorem C9_text_transform_witness :
    occursIn "xy".data "abc".data = false
    ∧ removeAll "xy".data "abc".data = "abc".data
    ∧ removeAll "ab".data ("ab".data ++ "cab".data) = removeAll "ab".data "cab".data :=
  ⟨by decide, C9_text_transform.2.2.1 "xy".data "abc".data (by decide),
    C9_text_transform.2.2.2 "ab".data "cab".data (by decide)⟩

/-- C10: In dry-run mode no Telegram send call is made for any post,
yet the per-post loop still persists last_id after each post exactly
as in a live run, so a dry run permanently advances the persisted
cursor to the last (sorted) fetched post's id. -/
theorem C10_dry_run_advances_cursor :
    ∀ (env : Env) (ar : Args) (st0 : St) (u : Str) (data : List Tweet)
      (mo : List MediaObj) (lt : Tweet),
      env.loadFails = false → st0.user_id = some u → ar.tweetId = none →
      ar.dryRun = true →
      env.timeline = Except.ok (data, mo) →
      (sortTweets data).getLast? = some lt →
      (∀ t ∈ sortTweets data, env.saveOk (some t.id) (some u) = true) →
      run env ar st0 = ⟨⟨some lt.id, some u⟩, [], false, Except.ok ()⟩ := by
  intro env ar st0 u data mo lt hload hu htid hdry htl hlast hsave
  have hne : sortTweets data ≠ [] := fun hnil => Option.noConfusion (hnil ▸ hlast)
  rw [run_load_ok env ar st0 hload,
    runTry_timeline env ar st0 u data mo hu htid htl hne,
    processTweets_allOk env ar u mo (sortTweets data) st0
      (fun t _ => by rw [deliver_dryRun env ar mo hdry]) hsave,
    finalStore_getLast u (sortTweets data) st0 lt hlast]
  have hfm : (sortTweets data).flatMap (fun t => (deliver env ar mo t).1) = [] := by
    simp only [deliver_dryRun env ar mo hdry]
    exact flatMap_nil_fun _
  rw [hfm]

/-- Witness for C10: a dry run over the timeline [id 2, id 10] makes
no Telegram call yet moves the cursor from 0 to the sorted-last id
2. -/
theorem C10_dry_run_advances_cursor_witness :
    run envC1 arDry ⟨some "0".data, some "u".data⟩ =
      ⟨⟨some "2".data, some "u".data⟩, [], false, Except.ok ()⟩ :=
  C10_dry_run_advances_cursor envC1 arDry ⟨some "0".data, some "u".data⟩ "u".data
    [tA, tB] [] tA rfl rfl rfl rfl rfl (by decide) (by decide)

end XTG
